import Mathlib

/-!
Shallow embedding of the JSON validator (Lexer + recursive-descent Parser)
from `src/json-parser.ts`, complete-grammar variant.

The TypeScript code is stateful (a mutable cursor in the Lexer, a buffered
`currentToken` in the Parser); here that state is passed explicitly.  Thrown
JS errors are modelled with `Except String`.  Each character-consuming loop of
the Lexer is written with an explicit iteration budget `rem` that the wrapper
instantiates with `input.length - pos`; since every iteration advances `pos`
by one and the loop guard requires `pos < input.length`, this budget is exact:
the budget case `0` can only be reached when the loop guard is already false,
so the functions compute precisely what the JS loops compute.
-/

namespace JsonParser

/-- The `TokenType` enum of the source. -/
inductive TokenType
  | LeftBrace
  | RightBrace
  | LeftBracket
  | RightBracket
  | Colon
  | Comma
  | String
  | True
  | False
  | Null
  | Number
  | EOF
deriving DecidableEq

/-- The printable enum-member name `TokenType[t]` of the source, used in
error messages. -/
def tokenTypeName : TokenType → String
  | .LeftBrace => "LeftBrace"
  | .RightBrace => "RightBrace"
  | .LeftBracket => "LeftBracket"
  | .RightBracket => "RightBracket"
  | .Colon => "Colon"
  | .Comma => "Comma"
  | .String => "String"
  | .True => "True"
  | .False => "False"
  | .Null => "Null"
  | .Number => "Number"
  | .EOF => "EOF"

/-- A token: a kind plus an optional payload.  The source stores the decoded
string for string tokens and `parseFloat(value)` for number tokens; the parser
never inspects payloads, so the number payload is kept as its lexeme text
rather than as a floating-point value. -/
structure Token where
  type : TokenType
  value : Option String := none
deriving DecidableEq

/-- The JavaScript test `/\s/.test(c)` (the whitespace class used by
`skipWhitespace`). -/
def isWhitespaceChar (c : Char) : Bool :=
  c = ' ' || c = '\t' || c = '\n' || c = '\r' || c = '\x0b' || c = '\x0c' ||
  c = '\u00a0' || c = '\u1680' || ('\u2000' <= c && c <= '\u200a') ||
  c = '\u2028' || c = '\u2029' || c = '\u202f' || c = '\u205f' ||
  c = '\u3000' || c = '\ufeff'

/-- Embeds `Lexer.isDigit`: `/\d/.test(c)`, i.e. an ASCII decimal digit. -/
def isDigit (c : Char) : Bool := c.isDigit

/-- Embeds `Lexer.isAlpha`: `/[a-zA-Z]/.test(c)`. -/
def isAlpha (c : Char) : Bool :=
  ('a' ≤ c && c ≤ 'z') || ('A' ≤ c && c ≤ 'Z')

/-- Loop body of `Lexer.skipWhitespace`:
`while (pos < len && isWhitespace(input[pos])) pos++`. -/
def skipWsAux : Nat → List Char → Nat → Nat
  | 0, _, pos => pos
  | rem + 1, input, pos =>
    if h : pos < input.length then
      if isWhitespaceChar (input.get ⟨pos, h⟩) then
        skipWsAux rem input (pos + 1)
      else pos
    else pos

/-- Embeds `Lexer.skipWhitespace`, returning the advanced cursor. -/
def skipWhitespace (input : List Char) (pos : Nat) : Nat :=
  skipWsAux (input.length - pos) input pos

/-- Loop of `Lexer.scanString`: accumulate characters up to (but not
including) the next `"` or the end of input; returns `(value, pos)`. -/
def scanStringAux : Nat → List Char → Nat → List Char → List Char × Nat
  | 0, _, pos, value => (value, pos)
  | rem + 1, input, pos, value =>
    if h : pos < input.length then
      if input.get ⟨pos, h⟩ ≠ '"' then
        scanStringAux rem input (pos + 1) (value ++ [input.get ⟨pos, h⟩])
      else (value, pos)
    else (value, pos)

/-- Embeds `Lexer.scanString`.  After the copy loop, the source checks
`input[pos] !== '"'` (out-of-range reads give `undefined`, which is `≠ '"'`)
and throws `Unterminated string`; otherwise it skips the closing quote. -/
def scanString (input : List Char) (pos : Nat) : Except String (Token × Nat) :=
  let r := scanStringAux (input.length - pos) input pos []
  if input.get? r.2 = some '"' then
    .ok (⟨.String, some (String.mk r.1)⟩, r.2 + 1)
  else
    .error "Unterminated string"

/-- Loop of `Lexer.scanNumber`: consume digits, plus at most one `.`
(a second `.` stops the loop); returns `(value, pos)`. -/
def scanNumberAux : Nat → List Char → Nat → List Char → Bool → List Char × Nat
  | 0, _, pos, value, _ => (value, pos)
  | rem + 1, input, pos, value, hasDot =>
    if h : pos < input.length then
      if isDigit (input.get ⟨pos, h⟩) then
        scanNumberAux rem input (pos + 1) (value ++ [input.get ⟨pos, h⟩]) hasDot
      else if input.get ⟨pos, h⟩ = '.' ∧ hasDot = false then
        scanNumberAux rem input (pos + 1) (value ++ [input.get ⟨pos, h⟩]) true
      else (value, pos)
    else (value, pos)

/-- The anchored regex `-?(0|[1-9]\d*)(\.\d+)?([eE][+-]?\d+)?` from
`Lexer.scanNumber`, as a deterministic matcher.  The regex is deterministic
over its input: after the greedy digit runs, no backtracking can recover from
a mismatch, so greedy matching decides it exactly.  `matchExpPart` matches
`([eE][+-]?\d+)?` against the whole remaining input. -/
def matchExpPart : List Char → Bool
  | [] => true
  | c :: rest =>
    if c = 'e' ∨ c = 'E' then
      let rest' := match rest with
        | c2 :: r2 => if c2 = '+' ∨ c2 = '-' then r2 else c2 :: r2
        | [] => []
      match rest' with
      | [] => false
      | c2 :: r2 => isDigit c2 && (r2.dropWhile (fun d => isDigit d)) = []
    else false

/-- Matches `(\.\d+)?([eE][+-]?\d+)?` against the whole remaining input. -/
def matchFracPart : List Char → Bool
  | [] => true
  | c :: rest =>
    if c = '.' then
      match rest with
      | [] => false
      | c2 :: r2 =>
        isDigit c2 && matchExpPart (r2.dropWhile (fun d => isDigit d))
    else matchExpPart (c :: rest)

/-- Full match of `-?(0|[1-9]\d*)(\.\d+)?([eE][+-]?\d+)?`. -/
def numberFormatOk (s : List Char) : Bool :=
  let s1 := match s with
    | '-' :: r => r
    | _ => s
  match s1 with
  | [] => false
  | c :: r =>
    if c = '0' then matchFracPart r
    else if isDigit c then matchFracPart (r.dropWhile (fun d => isDigit d))
    else false

/-- The consuming phase of `Lexer.scanNumber`, entered with the cursor one
past the character that triggered the scan: if `input[pos-1]` is `'-'` the
lexeme starts as `"-"` (dead code in practice: `scanToken` only dispatches
digits here), otherwise the cursor is backed up one place; then the digit/dot
loop runs.  Returns `(lexeme, pos)`. -/
def scanNumberRun (input : List Char) (pos : Nat) : List Char × Nat :=
  let init : List Char × Nat :=
    if input.get? (pos - 1) = some '-' then (['-'], pos) else ([], pos - 1)
  scanNumberAux (input.length - init.2) input init.2 init.1 false

/-- Embeds `Lexer.scanNumber`: run the consuming phase, then validate the
accumulated lexeme against the number regex; a mismatch throws
`Invalid number format`. -/
def scanNumber (input : List Char) (pos : Nat) : Except String (Token × Nat) :=
  let r := scanNumberRun input pos
  if numberFormatOk r.1 then
    .ok (⟨.Number, some (String.mk r.1)⟩, r.2)
  else
    .error ("Invalid number format: " ++ String.mk r.1)

/-- Loop of `Lexer.scanKeyword`: greedily consume ASCII letters. -/
def scanKeywordAux : Nat → List Char → Nat → List Char → List Char × Nat
  | 0, _, pos, value => (value, pos)
  | rem + 1, input, pos, value =>
    if h : pos < input.length then
      if isAlpha (input.get ⟨pos, h⟩) then
        scanKeywordAux rem input (pos + 1) (value ++ [input.get ⟨pos, h⟩])
      else (value, pos)
    else (value, pos)

/-- Embeds `Lexer.scanKeyword`: the accumulated word must be exactly `true`,
`false` or `null`; anything else throws `Unexpected keyword`. -/
def scanKeyword (startingChar : Char) (input : List Char) (pos : Nat) :
    Except String (Token × Nat) :=
  let r := scanKeywordAux (input.length - pos) input pos [startingChar]
  let value := String.mk r.1
  if value = "true" then .ok (⟨.True, none⟩, r.2)
  else if value = "false" then .ok (⟨.False, none⟩, r.2)
  else if value = "null" then .ok (⟨.Null, none⟩, r.2)
  else .error ("Unexpected keyword: " ++ value)

/-- Embeds `Lexer.scanToken`: read `input[pos]`, advance the cursor, and dispatch.
The `none` arm mirrors the `undefined` read of an out-of-range index (it is
unreachable from `nextToken`, which only calls this when not at end). -/
def scanToken (input : List Char) (pos : Nat) : Except String (Token × Nat) :=
  match input.get? pos with
  | none => .error "Unexpected character: undefined"
  | some c =>
    let p := pos + 1
    if c = '\x7b' then .ok (⟨.LeftBrace, none⟩, p)
    else if c = '\x7d' then .ok (⟨.RightBrace, none⟩, p)
    else if c = ':' then .ok (⟨.Colon, none⟩, p)
    else if c = ',' then .ok (⟨.Comma, none⟩, p)
    else if c = '[' then .ok (⟨.LeftBracket, none⟩, p)
    else if c = ']' then .ok (⟨.RightBracket, none⟩, p)
    else if c = '"' then scanString input p
    else if isDigit c then scanNumber input p
    else if isAlpha c then scanKeyword c input p
    else .error ("Unexpected character: " ++ String.mk [c])

/-- Embeds `Lexer.isAtEnd`. -/
def isAtEnd (input : List Char) (pos : Nat) : Bool := pos ≥ input.length

/-- Embeds `Lexer.nextToken`: skip whitespace, return an EOF token at end of input,
otherwise scan one token. -/
def nextToken (input : List Char) (pos : Nat) : Except String (Token × Nat) :=
  let p := skipWhitespace input pos
  if isAtEnd input p then .ok (⟨.EOF, none⟩, p)
  else scanToken input p

/-- The `Parser` state: the underlying Lexer (its input text and cursor) plus the
single buffered token of lookahead (`currentToken`). -/
structure ParserState where
  input : List Char
  currentToken : Token
  pos : Nat
deriving DecidableEq

/-- Embeds `Parser.advance`: `this.currentToken = this.lexer.nextToken()`; a lexical
error thrown by `nextToken` propagates. -/
def advance (st : ParserState) : Except String ParserState :=
  match nextToken st.input st.pos with
  | .error e => .error e
  | .ok (t, p) => .ok ⟨st.input, t, p⟩

/-- Embeds `Parser.expect`: on a token-kind mismatch throw a syntax error; on a match
advance the lookahead and return `true`. -/
def expect (st : ParserState) (expectedType : TokenType) :
    Except String (Bool × ParserState) :=
  if st.currentToken.type ≠ expectedType then
    .error ("Syntax error <unexpected type> : " ++
      tokenTypeName st.currentToken.type)
  else
    match advance st with
    | .error e => .error e
    | .ok st' => .ok (true, st')

/-- The recursive rule methods of `Parser`, tagged by which method runs:
`input` is `parseInput`, `obj` is `parseObject`, `arr` is `parseArray`,
`kv` is `parseKeyValuePair`, and `objLoop` / `arrLoop` are the
`while (true)` member/element loops inside `parseObject` / `parseArray`.
They are bundled into one function recursing on an explicit budget so that
the mutual recursion of the source becomes structural; the budget only
bounds recursion depth, and `parseJSON` passes one that the input length
makes unreachable. -/
inductive Rule
  | input
  | obj
  | arr
  | kv
  | objLoop
  | arrLoop
deriving DecidableEq

/-- One step of the recursive descent.  In the loop rules, `.ok (true, st)`
means the JS loop executed `break` (control continues after the loop) and
`.ok (false, st)` means the enclosing method executed `return false`. -/
def parseRun : Nat → Rule → ParserState → Except String (Bool × ParserState)
  | 0, _, _ => .error "Parser recursion limit exceeded"
  | fuel + 1, r, st =>
    match r with
    | .input =>
      -- Parser.parseInput
      match st.currentToken.type with
      | .String | .Number | .True | .False | .Null =>
        (match advance st with
         | .error e => .error e
         | .ok st' => .ok (true, st'))
      | .LeftBrace => parseRun fuel .obj st
      | .LeftBracket => parseRun fuel .arr st
      | t => .error ("Unexpected value type: " ++ tokenTypeName t)
    | .obj =>
      -- Parser.parseObject
      match expect st .LeftBrace with
      | .error e => .error e
      | .ok (b, st1) =>
        if b then
          -- empty object
          if st1.currentToken.type = .RightBrace then
            match advance st1 with
            | .error e => .error e
            | .ok st2 => .ok (true, st2)
          else
            match parseRun fuel .objLoop st1 with
            | .error e => .error e
            | .ok (b2, st2) =>
              if b2 then
                match expect st2 .RightBrace with
                | .error e => .error e
                | .ok (b3, st3) =>
                  if b3 then .ok (true, st3) else .ok (false, st3)
              else .ok (false, st2)
        else .ok (false, st1)
    | .arr =>
      -- Parser.parseArray
      match expect st .LeftBracket with
      | .error e => .error e
      | .ok (b, st1) =>
        if b then
          -- empty array
          if st1.currentToken.type = .RightBracket then
            match advance st1 with
            | .error e => .error e
            | .ok st2 => .ok (true, st2)
          else
            match parseRun fuel .arrLoop st1 with
            | .error e => .error e
            | .ok (b2, st2) =>
              if b2 then
                match expect st2 .RightBracket with
                | .error e => .error e
                | .ok (b3, st3) =>
                  if b3 then .ok (true, st3) else .ok (false, st3)
              else .ok (false, st2)
        else .ok (false, st1)
    | .kv =>
      -- Parser.parseKeyValuePair
      match expect st .String with
      | .error e => .error e
      | .ok (b, st1) =>
        if b then
          match expect st1 .Colon with
          | .error e => .error e
          | .ok (b2, st2) =>
            if b2 then
              match parseRun fuel .input st2 with
              | .error e => .error e
              | .ok (b3, st3) =>
                if b3 then .ok (true, st3) else .ok (false, st3)
            else .ok (false, st2)
        else .ok (false, st1)
    | .objLoop =>
      -- the while (true) loop of Parser.parseObject
      match parseRun fuel .kv st with
      | .error e => .error e
      | .ok (b, st1) =>
        if b then
          if st1.currentToken.type = .RightBrace then .ok (true, st1)
          else
            match expect st1 .Comma with
            | .error e => .error e
            | .ok (b2, st2) =>
              if b2 then parseRun fuel .objLoop st2 else .ok (false, st2)
        else .ok (false, st1)
    | .arrLoop =>
      -- the while (true) loop of Parser.parseArray
      match parseRun fuel .input st with
      | .error e => .error e
      | .ok (b, st1) =>
        if b then
          if st1.currentToken.type = .RightBracket then .ok (true, st1)
          else
            match expect st1 .Comma with
            | .error e => .error e
            | .ok (b2, st2) =>
              if b2 then parseRun fuel .arrLoop st2 else .ok (false, st2)
        else .ok (false, st1)

/-- Embeds `Parser.parseInput`. -/
def parseInput (fuel : Nat) (st : ParserState) :
    Except String (Bool × ParserState) :=
  parseRun fuel .input st

/-- Embeds `Parser.parseObject`. -/
def parseObject (fuel : Nat) (st : ParserState) :
    Except String (Bool × ParserState) :=
  parseRun fuel .obj st

/-- Embeds `Parser.parseArray`. -/
def parseArray (fuel : Nat) (st : ParserState) :
    Except String (Bool × ParserState) :=
  parseRun fuel .arr st

/-- Embeds `Parser.parseKeyValuePair`. -/
def parseKeyValuePair (fuel : Nat) (st : ParserState) :
    Except String (Bool × ParserState) :=
  parseRun fuel .kv st

/-- Embeds `Parser.expectEOF`. -/
def expectEOF (st : ParserState) : Except String (Bool × ParserState) :=
  expect st .EOF

/-- The `try` body of `Parser.parse`: only an object or an array is allowed
at the root (`parseObject() && this.expectEOF()` short-circuits, so `expectEOF`
runs only when the rule method returned `true`); any other root token throws
`Root value must be an object or array`. -/
def parseBody (fuel : Nat) (st : ParserState) :
    Except String (Bool × ParserState) :=
  if st.currentToken.type = .LeftBrace then
    match parseObject fuel st with
    | .error e => .error e
    | .ok (b, st1) => if b then expectEOF st1 else .ok (false, st1)
  else if st.currentToken.type = .LeftBracket then
    match parseArray fuel st with
    | .error e => .error e
    | .ok (b, st1) => if b then expectEOF st1 else .ok (false, st1)
  else .error "Root value must be an object or array"

/-- Embeds `Parser.parse`: the single catch point — any error thrown inside the body
is converted into a `false` verdict. -/
def parse (fuel : Nat) (st : ParserState) : Bool :=
  match parseBody fuel st with
  | .ok (b, _) => b
  | .error _ => false

/-- The `Parser` constructor: build the Lexer and pull the first token of
lookahead.  Note this pull happens *outside* the `try` of `parse`, so an
error here escapes `parseJSON`. -/
def mkParser (input : String) : Except String ParserState :=
  match nextToken input.data 0 with
  | .error e => .error e
  | .ok (t, p) => .ok ⟨input.data, t, p⟩

/-- The recursion budget `parseJSON` hands to the rule methods.  Every level
of rule recursion consumes at least one input character before recursing
again (see the doc of `Rule`), so this budget is never exhausted. -/
def parserFuel (input : String) : Nat := 4 * input.length + 8

/-- Embeds `parseJSON` (the `validate` entry point): construct a fresh Parser over
the input and run `parse`.  A `.error` result models an exception escaping
`parseJSON` itself (possible only from the constructor's initial token pull);
`.ok b` models a normal boolean return. -/
def parseJSON (input : String) : Except String Bool :=
  match mkParser input with
  | .error e => .error e
  | .ok st => .ok (parse (parserFuel input) st)

/-! ## Claim theorems -/

/-- C1, counterexample: the claim says `validate` never throws across its own
boundary, for every input, including errors raised while producing the very
first token of lookahead.  False: the Parser constructor pulls the first
token *before* `parse` installs its catch, so on the input `"@"` the lexical
error `Unexpected character: @` escapes `parseJSON` (modelled as an `.error`
result instead of an `.ok` boolean). -/
theorem claim1_counterexample :
    parseJSON "@" = .error "Unexpected character: @" := rfl

/-- C1, amended: `validate` never throws across its own boundary *except*
for errors raised while producing the very first token of lookahead in the
Parser constructor, which escape `parseJSON` unmodified.  Precisely: (a) when
the constructor's initial token pull succeeds, `parseJSON` returns the
boolean verdict of `parse`; (b) any error raised inside the body of `parse`
is converted by its single catch point into a `false` verdict; (c) an error
raised by the constructor's initial token pull propagates unmodified out of
`parseJSON`. -/
theorem claim1_amended_single_catch :
    (∀ (s : String) (st : ParserState), mkParser s = .ok st →
      parseJSON s = .ok (parse (parserFuel s) st)) ∧
    (∀ (fuel : Nat) (st : ParserState) (e : String),
      parseBody fuel st = .error e → parse fuel st = false) ∧
    (∀ (s e : String), mkParser s = .error e → parseJSON s = .error e) := by
  refine ⟨?_, ?_, ?_⟩
  · intro s st h
    simp [parseJSON, h]
  · intro fuel st e h
    simp [parse, h]
  · intro s e h
    simp [parseJSON, h]

/-- Witness for C1's amended theorem at the concrete input `"[]"`. -/
theorem claim1_witness :
    parseJSON "[]" =
      .ok (parse (parserFuel "[]") ⟨"[]".data, ⟨.LeftBracket, none⟩, 1⟩) :=
  claim1_amended_single_catch.1 "[]" ⟨"[]".data, ⟨.LeftBracket, none⟩, 1⟩ rfl

/-- C2, code evaluation at the failing inputs: the claim says a `-`-prefixed
digit run is recognized as a single number token and documents such as
`[-1]` validate to `true`.  The code disagrees: `scanToken` has no `'-'`
case, so `'-'` (neither a digit nor a letter) raises
`Unexpected character: -`, and validation returns `false`.  The leading-minus
branch inside `scanNumber` and the `-?` in the number regex are dead code
(last conjunct: the regex itself would accept `-1`). -/
theorem claim2_code_eval :
    parseJSON "[-1]" = .ok false ∧
    parseJSON "\x7b\"a\":-1\x7d" = .ok false ∧
    nextToken "-1".data 0 = .error "Unexpected character: -" ∧
    numberFormatOk "-1".data = true :=
  ⟨rfl, rfl, rfl, rfl⟩

/-- C3, code evaluation at the failing input: the claim says an
exponent-form number such as `1e5` is consumed as one number token and
`\x7b"a":1e5\x7d` validates to `true`.  The code disagrees: `scanNumber`'s
loop consumes only digits and at most one dot, so the scanner stops before
`e`, emits the number token `1`, and the following `e` lexes as the invalid
keyword `e`; validation returns `false`.  The exponent clause of the code's
own number regex is unreachable (last conjunct: the regex itself would
accept `1e5`). -/
theorem claim3_code_eval :
    parseJSON "\x7b\"a\":1e5\x7d" = .ok false ∧
    nextToken "1e5".data 0 = .ok (⟨.Number, some "1"⟩, 1) ∧
    nextToken "1e5".data 1 = .error "Unexpected keyword: e" ∧
    numberFormatOk "1e5".data = true :=
  ⟨rfl, rfl, rfl, rfl⟩

/-- C4: the root value is restricted to an object or an array.  In general,
whenever the buffered lookahead token is neither `LeftBrace` nor
`LeftBracket`, `parse` returns `false`; concretely, every bare scalar kind
(string, number, true, false, null) is rejected at the root, while the same
scalar nested inside an object or array is accepted. -/
theorem claim4_root_restricted :
    (∀ (fuel : Nat) (st : ParserState),
      st.currentToken.type ≠ .LeftBrace → st.currentToken.type ≠ .LeftBracket →
      parse fuel st = false) ∧
    parseJSON "true" = .ok false ∧
    parseJSON "false" = .ok false ∧
    parseJSON "null" = .ok false ∧
    parseJSON "\"v\"" = .ok false ∧
    parseJSON "1" = .ok false ∧
    parseJSON "\x7b\"v\": true\x7d" = .ok true ∧
    parseJSON "[true]" = .ok true := by
  refine ⟨?_, rfl, rfl, rfl, rfl, rfl, rfl, rfl⟩
  intro fuel st h1 h2
  simp [parse, parseBody, h1, h2]

/-- Witness for C4's universally quantified conjunct at a concrete state
whose lookahead token is `EOF`. -/
theorem claim4_witness :
    parse 3 ⟨[], ⟨.EOF, none⟩, 0⟩ = false :=
  claim4_root_restricted.1 3 ⟨[], ⟨.EOF, none⟩, 0⟩ (by decide) (by decide)

/-- C5: trailing commas are rejected in both containers.  In general: at a
member position (reached right after a consumed `,` in an object) a
`RightBrace` lookahead makes `parseKeyValuePair` raise a syntax error; at an
element position (after a consumed `,` in an array) a `RightBracket`
lookahead makes `parseInput` raise an unexpected-value-type error; and after
a member/element, a lookahead that is not the closing delimiter must be a
`,` or `expect Comma` raises a syntax error.  Concretely, trailing-comma
documents validate to `false` while their comma-correct variants validate to
`true`. -/
theorem claim5_trailing_comma :
    (∀ (fuel : Nat) (st : ParserState), st.currentToken.type = .RightBrace →
      parseKeyValuePair (fuel + 1) st =
        .error "Syntax error <unexpected type> : RightBrace") ∧
    (∀ (fuel : Nat) (st : ParserState), st.currentToken.type = .RightBracket →
      parseInput (fuel + 1) st =
        .error "Unexpected value type: RightBracket") ∧
    (∀ st : ParserState, st.currentToken.type ≠ .Comma →
      expect st .Comma = .error ("Syntax error <unexpected type> : " ++
        tokenTypeName st.currentToken.type)) ∧
    parseJSON "\x7b\"a\":1,\x7d" = .ok false ∧
    parseJSON "[1,2,]" = .ok false ∧
    parseJSON "[1,]" = .ok false ∧
    parseJSON "\x7b\"a\":1,\"b\":2,\x7d" = .ok false ∧
    parseJSON "\x7b\"a\":1\x7d" = .ok true ∧
    parseJSON "[1,2]" = .ok true := by
  refine ⟨?_, ?_, ?_, rfl, rfl, rfl, rfl, rfl, rfl⟩
  · intro fuel st h
    obtain ⟨inp, ⟨ty, v⟩, p⟩ := st
    simp only at h
    subst h
    rfl
  · intro fuel st h
    obtain ⟨inp, ⟨ty, v⟩, p⟩ := st
    simp only at h
    subst h
    rfl
  · intro st h
    rw [expect, if_pos h]

/-- Witness for C5's quantified conjuncts at a concrete parser state whose
lookahead is `RightBrace`. -/
theorem claim5_witness :
    parseKeyValuePair 1 ⟨[], ⟨.RightBrace, none⟩, 0⟩ =
      .error "Syntax error <unexpected type> : RightBrace" :=
  claim5_trailing_comma.1 0 ⟨[], ⟨.RightBrace, none⟩, 0⟩ rfl

/-- C6: after consuming a number lexeme the scanner validates it against
`-?(0|[1-9][0-9]*)(\.[0-9]+)?([eE][+-]?[0-9]+)?` and any mismatch raises an
invalid-number error (first conjunct, in general); consequently
`validate` rejects a leading-zero literal such as `01`, and the matcher
behaves as the pattern prescribes on representative lexemes. -/
theorem claim6_leading_zero :
    (∀ (input : List Char) (pos : Nat),
      numberFormatOk (scanNumberRun input pos).1 = false →
      scanNumber input pos =
        .error ("Invalid number format: " ++
          String.mk (scanNumberRun input pos).1)) ∧
    parseJSON "\x7b\"a\": 01\x7d" = .ok false ∧
    nextToken "01".data 0 = .error "Invalid number format: 01" ∧
    nextToken "1.x".data 0 = .error "Invalid number format: 1." ∧
    numberFormatOk "01".data = false ∧
    numberFormatOk "0".data = true ∧
    numberFormatOk "12".data = true ∧
    numberFormatOk "1.25".data = true ∧
    numberFormatOk "-3.5e-10".data = true ∧
    numberFormatOk "1.".data = false ∧
    numberFormatOk ".5".data = false ∧
    numberFormatOk [] = false := by
  refine ⟨?_, rfl, rfl, rfl, rfl, rfl, rfl, rfl, rfl, rfl, rfl, rfl⟩
  intro input pos h
  simp [scanNumber, h]

/-- Witness for C6's quantified conjunct: the scan of `01` (entered by
`scanToken` with the cursor one past the `0`). -/
theorem claim6_witness :
    scanNumber "01".data 1 =
      .error ("Invalid number format: " ++
        String.mk (scanNumberRun "01".data 1).1) :=
  claim6_leading_zero.1 "01".data 1 rfl

/-- C9: `validate` is a deterministic pure function of its input string: two
calls on the same string yield the same verdict.  In this embedding all
Scanner/Parser state is threaded explicitly and `parseJSON` constructs it
afresh from the input alone (there is no other state it could read), so the
two calls are applications of one function to one value. -/
theorem claim9_deterministic :
    ∀ s₁ s₂ : String, s₁ = s₂ → parseJSON s₁ = parseJSON s₂ := by
  intro s₁ s₂ h
  rw [h]

/-- Witness for C9 at the concrete input of two calls on `"[]"`. -/
theorem claim9_witness : parseJSON "[]" = parseJSON "[]" :=
  claim9_deterministic "[]" "[]" rfl

/-! ### Cursor lemmas for the Scanner (claims C7 and C8) -/

theorem skipWsAux_ge (rem : Nat) (input : List Char) (pos : Nat) :
    pos ≤ skipWsAux rem input pos := by
  induction rem generalizing pos with
  | zero => simp [skipWsAux]
  | succ n ih =>
    rw [skipWsAux]
    split
    · split
      · exact le_trans (Nat.le_succ pos) (ih (pos + 1))
      · exact le_refl pos
    · exact le_refl pos

theorem skipWsAux_le (rem : Nat) (input : List Char) (pos : Nat)
    (h : pos ≤ input.length) : skipWsAux rem input pos ≤ input.length := by
  induction rem generalizing pos with
  | zero => simpa [skipWsAux] using h
  | succ n ih =>
    rw [skipWsAux]
    split
    next hlt =>
      split
      · exact ih (pos + 1) hlt
      · exact h
    next => exact h

theorem skipWhitespace_ge (input : List Char) (pos : Nat) :
    pos ≤ skipWhitespace input pos :=
  skipWsAux_ge _ input pos

theorem skipWhitespace_le (input : List Char) (pos : Nat)
    (h : pos ≤ input.length) : skipWhitespace input pos ≤ input.length :=
  skipWsAux_le _ input pos h

/-- Once at or past the end, `skipWhitespace` does not move the cursor. -/
theorem skipWhitespace_of_ge (input : List Char) (pos : Nat)
    (h : input.length ≤ pos) : skipWhitespace input pos = pos := by
  rw [skipWhitespace, Nat.sub_eq_zero_of_le h, skipWsAux]

theorem scanStringAux_ge (rem : Nat) (input : List Char) (pos : Nat)
    (value : List Char) : pos ≤ (scanStringAux rem input pos value).2 := by
  induction rem generalizing pos value with
  | zero => simp [scanStringAux]
  | succ n ih =>
    rw [scanStringAux]
    split
    · split
      · exact le_trans (Nat.le_succ pos) (ih (pos + 1) _)
      · exact le_refl pos
    · exact le_refl pos

theorem scanStringAux_le (rem : Nat) (input : List Char) (pos : Nat)
    (value : List Char) (h : pos ≤ input.length) :
    (scanStringAux rem input pos value).2 ≤ input.length := by
  induction rem generalizing pos value with
  | zero => simpa [scanStringAux] using h
  | succ n ih =>
    rw [scanStringAux]
    split
    next hlt =>
      split
      · exact ih (pos + 1) _ hlt
      · exact h
    next => exact h

theorem scanNumberAux_ge (rem : Nat) (input : List Char) (pos : Nat)
    (value : List Char) (hasDot : Bool) :
    pos ≤ (scanNumberAux rem input pos value hasDot).2 := by
  induction rem generalizing pos value hasDot with
  | zero => simp [scanNumberAux]
  | succ n ih =>
    rw [scanNumberAux]
    split
    · split
      · exact le_trans (Nat.le_succ pos) (ih (pos + 1) _ _)
      · split
        · exact le_trans (Nat.le_succ pos) (ih (pos + 1) _ _)
        · exact le_refl pos
    · exact le_refl pos

theorem scanNumberAux_le (rem : Nat) (input : List Char) (pos : Nat)
    (value : List Char) (hasDot : Bool) (h : pos ≤ input.length) :
    (scanNumberAux rem input pos value hasDot).2 ≤ input.length := by
  induction rem generalizing pos value hasDot with
  | zero => simpa [scanNumberAux] using h
  | succ n ih =>
    rw [scanNumberAux]
    split
    next hlt =>
      split
      · exact ih (pos + 1) _ _ hlt
      · split
        · exact ih (pos + 1) _ _ hlt
        · exact h
    next => exact h

theorem scanKeywordAux_ge (rem : Nat) (input : List Char) (pos : Nat)
    (value : List Char) : pos ≤ (scanKeywordAux rem input pos value).2 := by
  induction rem generalizing pos value with
  | zero => simp [scanKeywordAux]
  | succ n ih =>
    rw [scanKeywordAux]
    split
    · split
      · exact le_trans (Nat.le_succ pos) (ih (pos + 1) _)
      · exact le_refl pos
    · exact le_refl pos

theorem scanKeywordAux_le (rem : Nat) (input : List Char) (pos : Nat)
    (value : List Char) (h : pos ≤ input.length) :
    (scanKeywordAux rem input pos value).2 ≤ input.length := by
  induction rem generalizing pos value with
  | zero => simpa [scanKeywordAux] using h
  | succ n ih =>
    rw [scanKeywordAux]
    split
    next hlt =>
      split
      · exact ih (pos + 1) _ hlt
      · exact h
    next => exact h

theorem scanString_bounds (input : List Char) (pos : Nat) (t : Token)
    (pos' : Nat) (_hle : pos ≤ input.length)
    (h : scanString input pos = .ok (t, pos')) :
    pos ≤ pos' ∧ pos' ≤ input.length := by
  simp only [scanString] at h
  split at h
  next hq =>
    simp only [Except.ok.injEq, Prod.mk.injEq] at h
    obtain ⟨-, rfl⟩ := h
    have h1 := scanStringAux_ge (input.length - pos) input pos []
    have h2 := List.get?_eq_some.mp hq
    obtain ⟨hlt, -⟩ := h2
    omega
  next => exact absurd h (by simp)

theorem scanNumberRun_bounds (input : List Char) (pos : Nat)
    (hle : pos ≤ input.length) :
    pos - 1 ≤ (scanNumberRun input pos).2 ∧
    (scanNumberRun input pos).2 ≤ input.length := by
  simp only [scanNumberRun]
  split
  · constructor
    · exact le_trans (Nat.sub_le pos 1) (scanNumberAux_ge _ input pos _ _)
    · exact scanNumberAux_le _ input pos _ _ hle
  · constructor
    · exact scanNumberAux_ge _ input (pos - 1) _ _
    · exact scanNumberAux_le _ input (pos - 1) _ _
        (le_trans (Nat.sub_le pos 1) hle)

theorem scanNumber_bounds (input : List Char) (pos : Nat) (t : Token)
    (pos' : Nat) (hle : pos ≤ input.length)
    (h : scanNumber input pos = .ok (t, pos')) :
    pos - 1 ≤ pos' ∧ pos' ≤ input.length := by
  simp only [scanNumber] at h
  split at h
  · simp only [Except.ok.injEq, Prod.mk.injEq] at h
    obtain ⟨-, rfl⟩ := h
    exact scanNumberRun_bounds input pos hle
  · exact absurd h (by simp)

theorem scanKeyword_bounds (c : Char) (input : List Char) (pos : Nat)
    (t : Token) (pos' : Nat) (hle : pos ≤ input.length)
    (h : scanKeyword c input pos = .ok (t, pos')) :
    pos ≤ pos' ∧ pos' ≤ input.length := by
  simp only [scanKeyword] at h
  have h1 := scanKeywordAux_ge (input.length - pos) input pos [c]
  have h2 := scanKeywordAux_le (input.length - pos) input pos [c] hle
  split at h
  · simp only [Except.ok.injEq, Prod.mk.injEq] at h
    obtain ⟨-, rfl⟩ := h
    exact ⟨h1, h2⟩
  · split at h
    · simp only [Except.ok.injEq, Prod.mk.injEq] at h
      obtain ⟨-, rfl⟩ := h
      exact ⟨h1, h2⟩
    · split at h
      · simp only [Except.ok.injEq, Prod.mk.injEq] at h
        obtain ⟨-, rfl⟩ := h
        exact ⟨h1, h2⟩
      · exact absurd h (by simp)

theorem scanToken_bounds (input : List Char) (pos : Nat) (t : Token)
    (pos' : Nat) (hlt : pos < input.length)
    (h : scanToken input pos = .ok (t, pos')) :
    pos ≤ pos' ∧ pos' ≤ input.length := by
  cases hg : input.get? pos with
  | none => simp only [scanToken, hg] at h; exact (Except.noConfusion h)
  | some c =>
    simp only [scanToken, hg] at h
    split at h
    · simp only [Except.ok.injEq, Prod.mk.injEq] at h
      obtain ⟨-, rfl⟩ := h; omega
    split at h
    · simp only [Except.ok.injEq, Prod.mk.injEq] at h
      obtain ⟨-, rfl⟩ := h; omega
    split at h
    · simp only [Except.ok.injEq, Prod.mk.injEq] at h
      obtain ⟨-, rfl⟩ := h; omega
    split at h
    · simp only [Except.ok.injEq, Prod.mk.injEq] at h
      obtain ⟨-, rfl⟩ := h; omega
    split at h
    · simp only [Except.ok.injEq, Prod.mk.injEq] at h
      obtain ⟨-, rfl⟩ := h; omega
    split at h
    · simp only [Except.ok.injEq, Prod.mk.injEq] at h
      obtain ⟨-, rfl⟩ := h; omega
    split at h
    · have := scanString_bounds input (pos + 1) t pos' hlt h
      omega
    split at h
    · have := scanNumber_bounds input (pos + 1) t pos' hlt h
      omega
    split at h
    · have := scanKeyword_bounds c input (pos + 1) t pos' hlt h
      omega
    · exact absurd h (by simp)

/-- C7: the Scanner's cursor only moves forward and never exceeds one past
the final character — at every successful return from `nextToken`, the new
cursor is at least the old cursor and at most the input length. -/
theorem claim7_cursor_monotone (input : List Char) (pos : Nat) (t : Token)
    (pos' : Nat) (hle : pos ≤ input.length)
    (h : nextToken input pos = .ok (t, pos')) :
    pos ≤ pos' ∧ pos' ≤ input.length := by
  have hge := skipWhitespace_ge input pos
  have hlen := skipWhitespace_le input pos hle
  simp only [nextToken] at h
  split at h
  next hend =>
    simp only [Except.ok.injEq, Prod.mk.injEq] at h
    obtain ⟨-, rfl⟩ := h
    omega
  next hend =>
    simp only [isAtEnd, ge_iff_le, decide_eq_true_eq, not_le] at hend
    have := scanToken_bounds input (skipWhitespace input pos) t pos' hend h
    omega

/-- Witness for C7: scanning the number token of the input `"12"` from
cursor `0` moves the cursor to `2`, within bounds. -/
theorem claim7_witness : (0 : Nat) ≤ 2 ∧ 2 ≤ ("12".data).length :=
  claim7_cursor_monotone "12".data 0 ⟨.Number, some "12"⟩ 2 (by simp) rfl

/-! ### No branch of `scanToken` produces an EOF token (claim C8) -/

theorem scanString_type (input : List Char) (pos : Nat) (t : Token)
    (pos' : Nat) (h : scanString input pos = .ok (t, pos')) :
    t.type = .String := by
  simp only [scanString] at h
  split at h
  · simp only [Except.ok.injEq, Prod.mk.injEq] at h
    rw [← h.1]
  · exact absurd h (by simp)

theorem scanNumber_type (input : List Char) (pos : Nat) (t : Token)
    (pos' : Nat) (h : scanNumber input pos = .ok (t, pos')) :
    t.type = .Number := by
  simp only [scanNumber] at h
  split at h
  · simp only [Except.ok.injEq, Prod.mk.injEq] at h
    rw [← h.1]
  · exact absurd h (by simp)

theorem scanKeyword_type (c : Char) (input : List Char) (pos : Nat)
    (t : Token) (pos' : Nat) (h : scanKeyword c input pos = .ok (t, pos')) :
    t.type = .True ∨ t.type = .False ∨ t.type = .Null := by
  simp only [scanKeyword] at h
  split at h
  · simp only [Except.ok.injEq, Prod.mk.injEq] at h
    exact Or.inl (by rw [← h.1])
  · split at h
    · simp only [Except.ok.injEq, Prod.mk.injEq] at h
      exact Or.inr (Or.inl (by rw [← h.1]))
    · split at h
      · simp only [Except.ok.injEq, Prod.mk.injEq] at h
        exact Or.inr (Or.inr (by rw [← h.1]))
      · exact absurd h (by simp)

theorem scanToken_ne_eof (input : List Char) (pos : Nat) (t : Token)
    (pos' : Nat) (h : scanToken input pos = .ok (t, pos')) :
    t.type ≠ .EOF := by
  cases hg : input.get? pos with
  | none => simp only [scanToken, hg] at h; exact (Except.noConfusion h)
  | some c =>
    simp only [scanToken, hg] at h
    split at h
    · simp only [Except.ok.injEq, Prod.mk.injEq] at h
      rw [← h.1]; simp
    split at h
    · simp only [Except.ok.injEq, Prod.mk.injEq] at h
      rw [← h.1]; simp
    split at h
    · simp only [Except.ok.injEq, Prod.mk.injEq] at h
      rw [← h.1]; simp
    split at h
    · simp only [Except.ok.injEq, Prod.mk.injEq] at h
      rw [← h.1]; simp
    split at h
    · simp only [Except.ok.injEq, Prod.mk.injEq] at h
      rw [← h.1]; simp
    split at h
    · simp only [Except.ok.injEq, Prod.mk.injEq] at h
      rw [← h.1]; simp
    split at h
    · rw [scanString_type input (pos + 1) t pos' h]; simp
    split at h
    · rw [scanNumber_type input (pos + 1) t pos' h]; simp
    split at h
    · rcases scanKeyword_type c input (pos + 1) t pos' h with h1 | h1 | h1 <;>
        rw [h1] <;> simp
    · exact absurd h (by simp)

/-- C8: `nextToken` is idempotent at end of input — once a call returns an
EOF token, calling `nextToken` again from the returned cursor returns an EOF
token again (with the cursor unmoved), hence so does every subsequent
call. -/
theorem claim8_eof_idempotent (input : List Char) (pos : Nat) (t : Token)
    (pos' : Nat) (h : nextToken input pos = .ok (t, pos'))
    (ht : t.type = .EOF) :
    nextToken input pos' = .ok (⟨.EOF, none⟩, pos') := by
  simp only [nextToken] at h ⊢
  split at h
  next hend =>
    simp only [isAtEnd, ge_iff_le, decide_eq_true_eq] at hend
    simp only [Except.ok.injEq, Prod.mk.injEq] at h
    obtain ⟨-, rfl⟩ := h
    rw [skipWhitespace_of_ge input _ hend]
    simp [isAtEnd, hend]
  next hend =>
    exact absurd ht (scanToken_ne_eof input _ t pos' h)

/-- Witness for C8 at the concrete empty input: `nextToken` returns EOF at
cursor `0`, and calling again from cursor `0` returns EOF again. -/
theorem claim8_witness : nextToken [] 0 = .ok (⟨.EOF, none⟩, 0) :=
  claim8_eof_idempotent [] 0 ⟨.EOF, none⟩ 0 rfl rfl

/-! ### The rule methods never return `false` (claim C10) -/

/-- The primitive `Parser.expect` either raises an error or returns `true`. -/
theorem expect_ok (st : ParserState) (ty : TokenType) (b : Bool)
    (st' : ParserState) (h : expect st ty = .ok (b, st')) : b = true := by
  simp only [expect] at h
  split at h
  · exact Except.noConfusion h
  · cases hadv : advance st with
    | error e => simp only [hadv] at h; exact Except.noConfusion h
    | ok st1 =>
      simp only [hadv, Except.ok.injEq, Prod.mk.injEq] at h
      exact h.1.symm

/-- No rule method of the Parser ever returns the boolean `false`: every
`.ok` result carries `true` (the `return false` branches are unreachable). -/
theorem parseRun_ok_true : ∀ (fuel : Nat) (r : Rule) (st : ParserState)
    (b : Bool) (st' : ParserState),
    parseRun fuel r st = .ok (b, st') → b = true := by
  intro fuel
  induction fuel with
  | zero =>
    intro r st b st' h
    simp only [parseRun] at h
    exact Except.noConfusion h
  | succ n ih =>
    intro r st b st' h
    cases r with
    | input =>
      simp only [parseRun] at h
      split at h
      any_goals exact ih _ _ _ _ h
      any_goals exact Except.noConfusion h
      all_goals
        cases hadv : advance st with
        | error e => simp only [hadv] at h; exact Except.noConfusion h
        | ok st1 =>
          simp only [hadv, Except.ok.injEq, Prod.mk.injEq] at h
          exact h.1.symm
    | obj =>
      simp only [parseRun] at h
      cases hexp : expect st .LeftBrace with
      | error e => simp only [hexp] at h; exact Except.noConfusion h
      | ok p =>
        obtain ⟨b1, st1⟩ := p
        have hb1 := expect_ok st .LeftBrace b1 st1 hexp
        subst hb1
        simp only [hexp, if_true] at h
        split at h
        · cases hadv : advance st1 with
          | error e => simp only [hadv] at h; exact Except.noConfusion h
          | ok st2 =>
            simp only [hadv, Except.ok.injEq, Prod.mk.injEq] at h
            exact h.1.symm
        · cases hloop : parseRun n .objLoop st1 with
          | error e => simp only [hloop] at h; exact Except.noConfusion h
          | ok p2 =>
            obtain ⟨b2, st2⟩ := p2
            have hb2 := ih .objLoop st1 b2 st2 hloop
            subst hb2
            simp only [hloop, if_true] at h
            cases hexp2 : expect st2 .RightBrace with
            | error e => simp only [hexp2] at h; exact Except.noConfusion h
            | ok p3 =>
              obtain ⟨b3, st3⟩ := p3
              have hb3 := expect_ok st2 .RightBrace b3 st3 hexp2
              subst hb3
              simp only [hexp2, if_true, Except.ok.injEq, Prod.mk.injEq] at h
              exact h.1.symm
    | arr =>
      simp only [parseRun] at h
      cases hexp : expect st .LeftBracket with
      | error e => simp only [hexp] at h; exact Except.noConfusion h
      | ok p =>
        obtain ⟨b1, st1⟩ := p
        have hb1 := expect_ok st .LeftBracket b1 st1 hexp
        subst hb1
        simp only [hexp, if_true] at h
        split at h
        · cases hadv : advance st1 with
          | error e => simp only [hadv] at h; exact Except.noConfusion h
          | ok st2 =>
            simp only [hadv, Except.ok.injEq, Prod.mk.injEq] at h
            exact h.1.symm
        · cases hloop : parseRun n .arrLoop st1 with
          | error e => simp only [hloop] at h; exact Except.noConfusion h
          | ok p2 =>
            obtain ⟨b2, st2⟩ := p2
            have hb2 := ih .arrLoop st1 b2 st2 hloop
            subst hb2
            simp only [hloop, if_true] at h
            cases hexp2 : expect st2 .RightBracket with
            | error e => simp only [hexp2] at h; exact Except.noConfusion h
            | ok p3 =>
              obtain ⟨b3, st3⟩ := p3
              have hb3 := expect_ok st2 .RightBracket b3 st3 hexp2
              subst hb3
              simp only [hexp2, if_true, Except.ok.injEq, Prod.mk.injEq] at h
              exact h.1.symm
    | kv =>
      simp only [parseRun] at h
      cases hexp : expect st .String with
      | error e => simp only [hexp] at h; exact Except.noConfusion h
      | ok p =>
        obtain ⟨b1, st1⟩ := p
        have hb1 := expect_ok st .String b1 st1 hexp
        subst hb1
        simp only [hexp, if_true] at h
        cases hexp2 : expect st1 .Colon with
        | error e => simp only [hexp2] at h; exact Except.noConfusion h
        | ok p2 =>
          obtain ⟨b2, st2⟩ := p2
          have hb2 := expect_ok st1 .Colon b2 st2 hexp2
          subst hb2
          simp only [hexp2, if_true] at h
          cases hval : parseRun n .input st2 with
          | error e => simp only [hval] at h; exact Except.noConfusion h
          | ok p3 =>
            obtain ⟨b3, st3⟩ := p3
            have hb3 := ih .input st2 b3 st3 hval
            subst hb3
            simp only [hval, if_true, Except.ok.injEq, Prod.mk.injEq] at h
            exact h.1.symm
    | objLoop =>
      simp only [parseRun] at h
      cases hkv : parseRun n .kv st with
      | error e => simp only [hkv] at h; exact Except.noConfusion h
      | ok p =>
        obtain ⟨b1, st1⟩ := p
        have hb1 := ih .kv st b1 st1 hkv
        subst hb1
        simp only [hkv, if_true] at h
        split at h
        · simp only [Except.ok.injEq, Prod.mk.injEq] at h
          exact h.1.symm
        · cases hexp : expect st1 .Comma with
          | error e => simp only [hexp] at h; exact Except.noConfusion h
          | ok p2 =>
            obtain ⟨b2, st2⟩ := p2
            have hb2 := expect_ok st1 .Comma b2 st2 hexp
            subst hb2
            simp only [hexp, if_true] at h
            exact ih .objLoop st2 b st' h
    | arrLoop =>
      simp only [parseRun] at h
      cases hv : parseRun n .input st with
      | error e => simp only [hv] at h; exact Except.noConfusion h
      | ok p =>
        obtain ⟨b1, st1⟩ := p
        have hb1 := ih .input st b1 st1 hv
        subst hb1
        simp only [hv, if_true] at h
        split at h
        · simp only [Except.ok.injEq, Prod.mk.injEq] at h
          exact h.1.symm
        · cases hexp : expect st1 .Comma with
          | error e => simp only [hexp] at h; exact Except.noConfusion h
          | ok p2 =>
            obtain ⟨b2, st2⟩ := p2
            have hb2 := expect_ok st1 .Comma b2 st2 hexp
            subst hb2
            simp only [hexp, if_true] at h
            exact ih .arrLoop st2 b st' h

/-- The function `parseBody` never returns an `.ok` carrying `false`. -/
theorem parseBody_ok_true (fuel : Nat) (st : ParserState) (b : Bool)
    (st' : ParserState) (h : parseBody fuel st = .ok (b, st')) : b = true := by
  simp only [parseBody] at h
  split at h
  · cases hobj : parseObject fuel st with
    | error e => simp only [hobj] at h; exact Except.noConfusion h
    | ok p =>
      obtain ⟨b1, st1⟩ := p
      have hb1 := parseRun_ok_true fuel .obj st b1 st1 hobj
      subst hb1
      simp only [hobj, if_true] at h
      exact expect_ok st1 .EOF b st' h
  · split at h
    · cases harr : parseArray fuel st with
      | error e => simp only [harr] at h; exact Except.noConfusion h
      | ok p =>
        obtain ⟨b1, st1⟩ := p
        have hb1 := parseRun_ok_true fuel .arr st b1 st1 harr
        subst hb1
        simp only [harr, if_true] at h
        exact expect_ok st1 .EOF b st' h
    · exact Except.noConfusion h

/-- C10: every parsing helper (`expect`, `parseInput`, `parseObject`,
`parseArray`, `parseKeyValuePair`) either raises an error or returns `true` —
none ever returns `false`, so the `return false` branches in the rule methods
are unreachable — and `parse` returns `true` exactly when no error is raised
during the parse of its body. -/
theorem claim10_helpers_never_false (fuel : Nat) (st : ParserState) :
    (∀ b st', parseInput fuel st = .ok (b, st') → b = true) ∧
    (∀ b st', parseObject fuel st = .ok (b, st') → b = true) ∧
    (∀ b st', parseArray fuel st = .ok (b, st') → b = true) ∧
    (∀ b st', parseKeyValuePair fuel st = .ok (b, st') → b = true) ∧
    (∀ ty b st', expect st ty = .ok (b, st') → b = true) ∧
    (parse fuel st = true ↔ ∃ b st', parseBody fuel st = .ok (b, st')) := by
  refine ⟨fun b st' h => parseRun_ok_true fuel .input st b st' h,
          fun b st' h => parseRun_ok_true fuel .obj st b st' h,
          fun b st' h => parseRun_ok_true fuel .arr st b st' h,
          fun b st' h => parseRun_ok_true fuel .kv st b st' h,
          fun ty b st' h => expect_ok st ty b st' h, ?_, ?_⟩
  · intro hp
    simp only [parse] at hp
    cases hb : parseBody fuel st with
    | error e => simp only [hb] at hp; exact Bool.noConfusion hp
    | ok p =>
      obtain ⟨b1, st1⟩ := p
      exact ⟨b1, st1, rfl⟩
  · rintro ⟨b, st', hb⟩
    have := parseBody_ok_true fuel st b st' hb
    subst this
    simp only [parse, hb]

/-- Witness for C10 at a concrete parser state (lookahead `true`, empty
remainder): `parseInput` returns `true`, never `false`. -/
theorem claim10_witness : true = true :=
  (claim10_helpers_never_false 2 ⟨"true".data, ⟨.True, none⟩, 4⟩).1 true
    ⟨"true".data, ⟨.EOF, none⟩, 4⟩ rfl

end JsonParser

-- Concrete evaluations validating the embedding on small inputs.
example : JsonParser.nextToken "  12".data 0 =
    .ok (⟨.Number, some "12"⟩, 4) := rfl
example : JsonParser.nextToken "01".data 0 =
    .error "Invalid number format: 01" := rfl
example : JsonParser.nextToken "-1".data 0 =
    .error "Unexpected character: -" := rfl
example : JsonParser.nextToken "1e5".data 0 =
    .ok (⟨.Number, some "1"⟩, 1) := rfl
example : JsonParser.nextToken "1e5".data 1 =
    .error "Unexpected keyword: e" := rfl
example : JsonParser.nextToken "\"ab\"".data 0 =
    .ok (⟨.String, some "ab"⟩, 4) := rfl
example : JsonParser.nextToken "tru".data 0 =
    .error "Unexpected keyword: tru" := rfl
example : JsonParser.nextToken "1.5,".data 0 =
    .ok (⟨.Number, some "1.5"⟩, 3) := rfl
example : JsonParser.nextToken "1..5".data 0 =
    .error "Invalid number format: 1." := rfl
example : JsonParser.nextToken "".data 0 = .ok (⟨.EOF, none⟩, 0) := rfl
example : JsonParser.parseJSON "\x7b\x7d" = .ok true := rfl
example : JsonParser.parseJSON "[]" = .ok true := rfl
example : JsonParser.parseJSON "\x7b\"a\":1\x7d" = .ok true := rfl
example : JsonParser.parseJSON "[1,2,3]" = .ok true := rfl
example : JsonParser.parseJSON "\x7b\"v\": true\x7d" = .ok true := rfl
example : JsonParser.parseJSON "true" = .ok false := rfl
example : JsonParser.parseJSON "\x7b\"a\":1,\x7d" = .ok false := rfl
example : JsonParser.parseJSON "[1,2,]" = .ok false := rfl
example : JsonParser.parseJSON "\x7b\"a\": 01\x7d" = .ok false := rfl
example : JsonParser.parseJSON "[-1]" = .ok false := rfl
example : JsonParser.parseJSON "\x7b\"a\":1e5\x7d" = .ok false := rfl
example : JsonParser.parseJSON "@" = .error "Unexpected character: @" := rfl
example : JsonParser.parseJSON "\x7b\"a\":1,\"a\":2\x7d" = .ok true := rfl
example : JsonParser.parseJSON "\x7b\"a\": tru\x7d" = .ok false := rfl
example : JsonParser.parseJSON "[[[1]],\x7b\"k\":[]\x7d]" = .ok true := rfl
